import Mathlib

/-!
Verification of the prop-line movement-detection and correlation-analysis
engine.  The definitions below are a shallow embedding of the Python source:

* `detect_late_movement`, `calculate_movement`, `is_significant_movement`
  embed `src/analysis/line_movement.py` (class `LineMovementDetector`);
* `match_one` / `match_with_results` embed `LineMovementDetector.match_with_results`;
* `save_movements` embeds `LineMovementDetector.save_movements` (SQLAlchemy
  session with `autoflush=False`: queries issued during the loop see only the
  pre-existing rows, pending adds become visible at commit);
* `calculate_over_under_rates`, `calculate_baseline_rates`,
  `perform_chi_square_test`, `calculate_confidence_interval`, `run_analysis`
  embed `src/analysis/correlation.py` (class `CorrelationAnalyzer`);
* `find_closest` / `calculate_change_for_book` embed the per-bookmaker
  window computation of `src/api/routes/props.py` (dashboard endpoint).

Numeric values (Python `Decimal` / `float`) are modelled by `ℚ`; timestamps
(`datetime.timestamp()` seconds) by `ℚ`; SQL `Integer` columns by `ℤ`.
Calls into scipy/numpy that produce transcendental values (chi-square
survival function, normal quantile, square root) are abstracted as a
`NumericBackend` record of functions; every theorem quantifies over it.
-/

/-- Prop types tracked by the system (`PropType` enum in `models/database.py`). -/
inductive PropType where
  | rushing_yards
  | receiving_yards
deriving DecidableEq, Repr

/-- One `PropLineSnapshot` row, restricted to the columns the detector reads.
`snapshot_time` is the epoch timestamp in seconds. -/
structure Snapshot where
  event_id : String
  player_name : String
  prop_type : PropType
  snapshot_time : ℚ
  consensus_line : Option ℚ
deriving DecidableEq, Repr

/-- One `LineMovement` row (columns relevant to the analysis engine). -/
structure LineMovement where
  event_id : String
  player_name : String
  prop_type : PropType
  initial_line : ℚ
  final_line : ℚ
  initial_snapshot_time : ℚ
  final_snapshot_time : ℚ
  movement_absolute : ℚ
  movement_pct : ℚ
  hours_before_kickoff : ℚ
  game_commence_time : ℚ
  actual_yards : Option ℤ := none
  went_over : Option Bool := none
  went_under : Option Bool := none
deriving DecidableEq, Repr

/-- Detector configuration (`threshold_pct`, `threshold_abs`, `hours_before`
after the `__init__` defaulting). -/
structure DetectorConfig where
  threshold_pct : ℚ
  threshold_abs : ℚ
  hours_before : ℚ
deriving DecidableEq, Repr

/-- The analysis-relevant fields of `Settings` (`config.py`), with the
source defaults. -/
structure Settings where
  line_movement_threshold_pct : ℚ := 10
  line_movement_threshold_abs : ℚ := 5
  hours_before_kickoff_threshold : ℚ := 3
deriving DecidableEq, Repr

/-- Round-half-even to an integer, matching Python `round` on exact values. -/
def roundHalfEven (x : ℚ) : ℤ :=
  let f := Int.floor x
  if x - f < 1/2 then f
  else if 1/2 < x - f then f + 1
  else if f % 2 = 0 then f else f + 1

/-- Python `round(x, n)`: round-half-even at `n` decimal places. -/
def roundDec (n : ℕ) (x : ℚ) : ℚ :=
  (roundHalfEven (10 ^ n * x) : ℚ) / 10 ^ n

/-- `LineMovementDetector.calculate_movement`: absolute and percentage
movement, with percent defined as 0 for a zero initial line. -/
def calculate_movement (initial_line final_line : ℚ) : ℚ × ℚ :=
  let absolute := final_line - initial_line
  (absolute, if initial_line ≠ 0 then absolute / initial_line * 100 else 0)

/-- `LineMovementDetector.is_significant_movement`: a significant DROP,
`movement_abs ≤ −threshold_abs` or `movement_pct ≤ −threshold_pct`. -/
def is_significant_movement (cfg : DetectorConfig) (movement_abs movement_pct : ℚ) : Prop :=
  movement_abs ≤ -cfg.threshold_abs ∨ movement_pct ≤ -cfg.threshold_pct

instance (cfg : DetectorConfig) (a p : ℚ) : Decidable (is_significant_movement cfg a p) :=
  inferInstanceAs (Decidable (_ ∨ _))

/-- `late_cutoff` in `detect_late_movement`: kickoff minus the lateness
window, in epoch seconds. -/
def late_cutoff (cfg : DetectorConfig) (game_commence_time : ℚ) : ℚ :=
  game_commence_time - cfg.hours_before * 3600

/-- Snapshots strictly before the late cutoff (`early_snapshots`). -/
def early_snapshots (cfg : DetectorConfig) (snapshots : List Snapshot)
    (game_commence_time : ℚ) : List Snapshot :=
  snapshots.filter (fun s => decide (s.snapshot_time < late_cutoff cfg game_commence_time))

/-- Snapshots at/after the late cutoff (`late_snapshots`). -/
def late_snapshots (cfg : DetectorConfig) (snapshots : List Snapshot)
    (game_commence_time : ℚ) : List Snapshot :=
  snapshots.filter (fun s => decide (late_cutoff cfg game_commence_time ≤ s.snapshot_time))

/-- Endpoint selection of `detect_late_movement`: the baseline snapshot and
the comparison snapshot (rows 135-162 of `line_movement.py`), `none` when
the series has fewer than two observations. -/
def select_endpoints (cfg : DetectorConfig) (snapshots : List Snapshot)
    (game_commence_time : ℚ) : Option (Snapshot × Snapshot) :=
  if snapshots.length < 2 then none
  else if (early_snapshots cfg snapshots game_commence_time).isEmpty
       || (late_snapshots cfg snapshots game_commence_time).isEmpty then
    match snapshots.head?, snapshots.getLast? with
    | some a, some b => some (a, b)
    | _, _ => none
  else
    match (early_snapshots cfg snapshots game_commence_time).getLast?,
          (late_snapshots cfg snapshots game_commence_time).getLast? with
    | some a, some b => some (a, b)
    | _, _ => none

/-- `LineMovementDetector.detect_late_movement`, returning the
`LineMovement` row that `detect_all_movements` would construct from the
returned dict (outcome fields still null). -/
def detect_late_movement (cfg : DetectorConfig) (snapshots : List Snapshot)
    (game_commence_time : ℚ) : Option LineMovement :=
  match select_endpoints cfg snapshots game_commence_time, snapshots with
  | none, _ => none
  | some _, [] => none
  | some (early_snapshot, late_snapshot), s0 :: _ =>
    match early_snapshot.consensus_line, late_snapshot.consensus_line with
    | some initial_line, some final_line =>
      let mv := calculate_movement initial_line final_line
      if is_significant_movement cfg mv.1 mv.2 then
        some { event_id := s0.event_id
               player_name := s0.player_name
               prop_type := s0.prop_type
               initial_line := initial_line
               final_line := final_line
               initial_snapshot_time := early_snapshot.snapshot_time
               final_snapshot_time := late_snapshot.snapshot_time
               movement_absolute := mv.1
               movement_pct := mv.2
               hours_before_kickoff :=
                 roundDec 2 ((game_commence_time - late_snapshot.snapshot_time) / 3600)
               game_commence_time := game_commence_time }
      else none
    | _, _ => none

/-- One `PlayerGameStats` row (columns read by `match_with_results`). -/
structure PlayerGameStats where
  event_id : String
  player_name : String
  rushing_yards : Option ℤ := none
  receiving_yards : Option ℤ := none
deriving DecidableEq, Repr

/-- Body of the `match_with_results` loop for one movement: look up the
player's stats row, pick the stat field by prop type, and set
`actual_yards`, `went_over`, `went_under`; any missing piece leaves the
movement untouched. -/
def match_one (stats : List PlayerGameStats) (m : LineMovement) : LineMovement :=
  match stats.find? (fun s =>
      decide (s.event_id = m.event_id) && decide (s.player_name = m.player_name)) with
  | none => m
  | some s =>
    let actual : Option ℤ :=
      match m.prop_type with
      | .rushing_yards => s.rushing_yards
      | .receiving_yards => s.receiving_yards
    match actual with
    | none => m
    | some a =>
      { m with actual_yards := some a
               went_over := some (decide (m.final_line < (a : ℚ)))
               went_under := some (decide ((a : ℚ) < m.final_line)) }

/-- `LineMovementDetector.match_with_results`. -/
def match_with_results (stats : List PlayerGameStats) (movements : List LineMovement) :
    List LineMovement :=
  movements.map (match_one stats)

/-- Natural key of a `LineMovement` used by `save_movements` dedup. -/
def movementKey (m : LineMovement) : String × String × PropType :=
  (m.event_id, m.player_name, m.prop_type)

/-- Same (event, player, prop-type) key. -/
def same_key (a b : LineMovement) : Bool :=
  decide (movementKey a = movementKey b)

/-- Field update applied to an existing row in `save_movements` (only the
seven listed columns are overwritten). -/
def applyUpdate (existing m : LineMovement) : LineMovement :=
  { existing with
      initial_line := m.initial_line
      final_line := m.final_line
      movement_absolute := m.movement_absolute
      movement_pct := m.movement_pct
      actual_yards := m.actual_yards
      went_over := m.went_over
      went_under := m.went_under }

/-- Overwrite the first row matching `m`'s key (the `.first()` query hit). -/
def replaceFirst : List LineMovement → LineMovement → List LineMovement
  | [], _ => []
  | e :: rest, m =>
    if same_key e m then applyUpdate e m :: rest else replaceFirst rest m |>.cons e

/-- Step of the `save_movements` loop.  State: (persistent rows, pending
adds).  With `autoflush=False` the existence query sees only persistent
rows; `session.add` only appends to the pending set. -/
def save_step (st : List LineMovement × List LineMovement) (m : LineMovement) :
    List LineMovement × List LineMovement :=
  if st.1.any (fun e => same_key e m) then (replaceFirst st.1 m, st.2)
  else (st.1, st.2 ++ [m])

/-- `LineMovementDetector.save_movements`: per-movement upsert by natural
key, commit makes the pending adds visible. -/
def save_movements (db : List LineMovement) (movements : List LineMovement) :
    List LineMovement :=
  let st := movements.foldl save_step (db, [])
  st.1 ++ st.2

/-- Result of `calculate_over_under_rates`: the dict of counts and rates.
`push_count` is `total - over_count - under_count` as a Python int (may be
negative on corrupt flags), hence `ℤ`. -/
structure Rates where
  total : ℕ
  over_count : ℕ
  under_count : ℕ
  push_count : ℤ
  over_rate : Option ℚ
  under_rate : Option ℚ
deriving DecidableEq, Repr

/-- `CorrelationAnalyzer.calculate_over_under_rates`: zero-total input
yields null rates, otherwise counts of truthy `went_over` / `went_under`
flags and their proportions. -/
def calculate_over_under_rates (movements : List LineMovement) : Rates :=
  let total := movements.length
  if total = 0 then
    { total := 0, over_count := 0, under_count := 0, push_count := 0,
      over_rate := none, under_rate := none }
  else
    let over_count := (movements.filter (fun m => m.went_over = some true)).length
    let under_count := (movements.filter (fun m => m.went_under = some true)).length
    { total := total, over_count := over_count, under_count := under_count,
      push_count := (total : ℤ) - over_count - under_count,
      over_rate := some ((over_count : ℚ) / total),
      under_rate := some ((under_count : ℚ) / total) }

/-- Python truthiness of an optional numeric filter argument: the query
filter is applied only when the argument is present and non-zero. -/
def numFilter (arg : Option ℚ) (cond : ℚ → Bool) : Bool :=
  match arg with
  | none => true
  | some v => if v = 0 then true else cond v

/-- Optional prop-type query filter (an enum member is always truthy). -/
def propFilter (arg : Option PropType) (m : LineMovement) : Bool :=
  match arg with
  | none => true
  | some p => decide (m.prop_type = p)

/-- Optional date-range query filters (a datetime is always truthy). -/
def dateFilter (start_date end_date : Option ℚ) (m : LineMovement) : Bool :=
  (match start_date with
   | none => true
   | some d => decide (d ≤ m.game_commence_time)) &&
  (match end_date with
   | none => true
   | some d => decide (m.game_commence_time ≤ d))

/-- `CorrelationAnalyzer.get_movements_with_results`: movements with a
non-null actual outcome, all optional query filters applied conjunctively. -/
def get_movements_with_results (db : List LineMovement) (prop_type : Option PropType)
    (min_movement_pct min_movement_abs max_hours_before : Option ℚ)
    (start_date end_date : Option ℚ) : List LineMovement :=
  db.filter (fun m =>
    m.actual_yards.isSome
    && propFilter prop_type m
    && numFilter min_movement_pct (fun v => decide (m.movement_pct ≤ -v))
    && numFilter min_movement_abs (fun v => decide (m.movement_absolute ≤ -v))
    && numFilter max_hours_before (fun v => decide (m.hours_before_kickoff ≤ v))
    && dateFilter start_date end_date m)

/-- The control-group selection of `CorrelationAnalyzer.calculate_baseline_rates`:
movements with results that are NOT significant under the *settings*
thresholds (`movement_pct > -settings.line_movement_threshold_pct` and
`movement_absolute > -settings.line_movement_threshold_abs`). -/
def baseline_movements (db : List LineMovement) (settings : Settings)
    (prop_type : Option PropType) (start_date end_date : Option ℚ) : List LineMovement :=
  db.filter (fun m =>
    m.actual_yards.isSome
    && propFilter prop_type m
    && dateFilter start_date end_date m
    && decide (-settings.line_movement_threshold_pct < m.movement_pct)
    && decide (-settings.line_movement_threshold_abs < m.movement_absolute))

/-- `CorrelationAnalyzer.calculate_baseline_rates`. -/
def calculate_baseline_rates (db : List LineMovement) (settings : Settings)
    (prop_type : Option PropType) (start_date end_date : Option ℚ) : Rates :=
  calculate_over_under_rates (baseline_movements db settings prop_type start_date end_date)

/-- Abstraction of the scipy/numpy numeric routines used by the analyzer:
`chi2_sf1` is the survival function of the chi-square distribution with one
degree of freedom (the p-value of `scipy.stats.chisquare` on two cells),
`norm_ppf` is `scipy.stats.norm.ppf`, `sqrtQ` is `np.sqrt`. -/
structure NumericBackend where
  chi2_sf1 : ℚ → ℚ
  norm_ppf : ℚ → ℚ
  sqrtQ : ℚ → ℚ

/-- `CorrelationAnalyzer.perform_chi_square_test`: degenerate inputs (zero
sample, zero expected rate, a zero expected cell) short-circuit to
`(0, 1)`, otherwise the two-cell chi-square statistic and its p-value. -/
def perform_chi_square_test (nb : NumericBackend) (observed_under observed_total : ℕ)
    (expected_under_rate : ℚ) : ℚ × ℚ :=
  if observed_total = 0 ∨ expected_under_rate = 0 then (0, 1)
  else
    let observed_over : ℤ := (observed_total : ℤ) - observed_under
    let expected_under : ℚ := observed_total * expected_under_rate
    let expected_over : ℚ := observed_total * (1 - expected_under_rate)
    if expected_under = 0 ∨ expected_over = 0 then (0, 1)
    else
      let chi2 := ((observed_under : ℚ) - expected_under) ^ 2 / expected_under
                + ((observed_over : ℚ) - expected_over) ^ 2 / expected_over
      (chi2, nb.chi2_sf1 chi2)

/-- `CorrelationAnalyzer.calculate_confidence_interval`: Wilson score
interval clamped to [0, 1], `(0, 1)` for a zero sample. -/
def calculate_confidence_interval (nb : NumericBackend) (successes total : ℕ)
    (confidence : ℚ) : ℚ × ℚ :=
  if total = 0 then (0, 1)
  else
    let p : ℚ := (successes : ℚ) / total
    let z := nb.norm_ppf ((1 + confidence) / 2)
    let denominator := 1 + z ^ 2 / total
    let center := (p + z ^ 2 / (2 * total)) / denominator
    let spread := z * nb.sqrtQ ((p * (1 - p) + z ^ 2 / (4 * total)) / total) / denominator
    (max 0 (center - spread), min 1 (center + spread))

/-- Python `x or default` on an optional float: `None` and `0.0` both fall
back to the default (used for the threshold arguments of `run_analysis`). -/
def orDefault (x : Option ℚ) (d : ℚ) : ℚ :=
  match x with
  | none => d
  | some v => if v = 0 then d else v

/-- One `AnalysisResult` row as constructed by `run_analysis` (the
date-range columns are bookkeeping defaults and are omitted). -/
structure AnalysisResult where
  analysis_name : String
  prop_type : Option PropType
  movement_threshold_pct : ℚ
  movement_threshold_abs : ℚ
  hours_before_threshold : ℚ
  sample_size : ℕ
  over_count : ℕ
  under_count : ℕ
  push_count : ℤ
  over_rate : Option ℚ
  under_rate : Option ℚ
  chi_square_statistic : ℚ
  p_value : ℚ
  is_significant : Bool
  confidence_interval_low : ℚ
  confidence_interval_high : ℚ
  baseline_over_rate : Option ℚ
  baseline_sample_size : ℕ
deriving DecidableEq, Repr

/-- The test group selected inside `run_analysis` after threshold
defaulting. -/
def analysis_test_group (db : List LineMovement) (settings : Settings)
    (prop_type : Option PropType)
    (movement_threshold_pct movement_threshold_abs hours_before_threshold : Option ℚ)
    (start_date end_date : Option ℚ) : List LineMovement :=
  get_movements_with_results db prop_type
    (some (orDefault movement_threshold_pct settings.line_movement_threshold_pct))
    (some (orDefault movement_threshold_abs settings.line_movement_threshold_abs))
    (some (orDefault hours_before_threshold settings.hours_before_kickoff_threshold))
    start_date end_date

/-- The expected under-rate fed to the chi-square test in `run_analysis`:
`float(baseline_rates["under_rate"] or 0.5)` — a null or zero baseline
under-rate falls back to one half. -/
def analysis_baseline_under_rate (db : List LineMovement) (settings : Settings)
    (prop_type : Option PropType) (start_date end_date : Option ℚ) : ℚ :=
  match (calculate_baseline_rates db settings prop_type start_date end_date).under_rate with
  | none => 1/2
  | some r => if r = 0 then 1/2 else r

/-- `CorrelationAnalyzer.run_analysis`. -/
def run_analysis (nb : NumericBackend) (db : List LineMovement) (settings : Settings)
    (name : String) (prop_type : Option PropType)
    (movement_threshold_pct movement_threshold_abs hours_before_threshold : Option ℚ)
    (start_date end_date : Option ℚ) : Option AnalysisResult :=
  let threshold_pct := orDefault movement_threshold_pct settings.line_movement_threshold_pct
  let threshold_abs := orDefault movement_threshold_abs settings.line_movement_threshold_abs
  let hours_threshold := orDefault hours_before_threshold settings.hours_before_kickoff_threshold
  let movements := analysis_test_group db settings prop_type
    movement_threshold_pct movement_threshold_abs hours_before_threshold start_date end_date
  let test_rates := calculate_over_under_rates movements
  if test_rates.total = 0 then none
  else
    let baseline_rates := calculate_baseline_rates db settings prop_type start_date end_date
    let baseline_under_rate :=
      analysis_baseline_under_rate db settings prop_type start_date end_date
    let chi := perform_chi_square_test nb test_rates.under_count test_rates.total
      baseline_under_rate
    let ci := calculate_confidence_interval nb test_rates.under_count test_rates.total (95/100)
    some { analysis_name := name
           prop_type := prop_type
           movement_threshold_pct := threshold_pct
           movement_threshold_abs := threshold_abs
           hours_before_threshold := hours_threshold
           sample_size := test_rates.total
           over_count := test_rates.over_count
           under_count := test_rates.under_count
           push_count := test_rates.push_count
           over_rate := test_rates.over_rate
           under_rate := test_rates.under_rate
           chi_square_statistic := roundDec 4 chi.1
           p_value := roundDec 8 chi.2
           is_significant := decide (chi.2 < 5/100)
           confidence_interval_low := roundDec 4 ci.1
           confidence_interval_high := roundDec 4 ci.2
           baseline_over_rate := baseline_rates.over_rate
           baseline_sample_size := baseline_rates.total }

/-- One snapshot restricted to a single bookmaker's columns, as used by the
dashboard computation (only snapshots whose line for that book is non-null
enter `book_snapshots`, so the line is not optional here). -/
structure BookObs where
  snapshot_time : ℚ
  line : ℚ
  over_odds : Option ℤ := none
  under_odds : Option ℤ := none
deriving DecidableEq, Repr

/-- The per-window result dict of `calculate_change_for_book`. -/
structure LineChangeData where
  minutes : ℕ
  absolute : Option ℚ
  percent : Option ℚ
  old_line : Option ℚ
  old_over_odds : Option ℤ
  old_under_odds : Option ℤ
  new_over_odds : Option ℤ
  new_under_odds : Option ℤ
deriving DecidableEq, Repr

/-- The all-null window result. -/
def nullChange (minutes : ℕ) : LineChangeData :=
  { minutes := minutes, absolute := none, percent := none, old_line := none,
    old_over_odds := none, old_under_odds := none,
    new_over_odds := none, new_under_odds := none }

/-- The backward scan of `calculate_change_for_book`: walk the candidate
snapshots from most recent to oldest (the reversed `book_snapshots[:-1]`),
skip snapshots after `current_time`, keep the snapshot with the smallest
distance to `target_time`, and stop once past the target with no
improvement.  `best = none` models the initial `min_diff = timedelta.max`
(every real distance beats it). -/
def find_closest (target_time current_time : ℚ) :
    List BookObs → Option BookObs → Option BookObs
  | [], best => best
  | snap :: rest, best =>
    if current_time < snap.snapshot_time then find_closest target_time current_time rest best
    else
      match best with
      | none => find_closest target_time current_time rest (some snap)
      | some b =>
        if |snap.snapshot_time - target_time| < |b.snapshot_time - target_time| then
          find_closest target_time current_time rest (some snap)
        else if snap.snapshot_time < target_time then some b
        else find_closest target_time current_time rest (some b)

/-- `calculate_change_for_book` from the dashboard endpoint of
`api/routes/props.py`.  `current_line`, `current_over_odds`,
`current_under_odds`, `current_time` are taken from the group's latest
snapshot; `minutes = 0` is the "Since Open" window. -/
def calculate_change_for_book (book_snapshots : List BookObs) (current_line : ℚ)
    (current_over_odds current_under_odds : Option ℤ) (current_time : ℚ)
    (minutes : ℕ) : LineChangeData :=
  match book_snapshots with
  | [] => nullChange minutes
  | first :: _ =>
    if minutes = 0 then
      let old_line := first.line
      { minutes := 0
        absolute := some (current_line - old_line)
        percent := some (if old_line ≠ 0 then (current_line - old_line) / old_line * 100 else 0)
        old_line := some old_line
        old_over_odds := first.over_odds
        old_under_odds := first.under_odds
        new_over_odds := current_over_odds
        new_under_odds := current_under_odds }
    else
      let target_time := current_time - minutes * 60
      match find_closest target_time current_time book_snapshots.dropLast.reverse none with
      | none => nullChange minutes
      | some closest_snap =>
        let old_line := closest_snap.line
        { minutes := minutes
          absolute := some (current_line - old_line)
          percent := some (if old_line ≠ 0 then (current_line - old_line) / old_line * 100 else 0)
          old_line := some old_line
          old_over_odds := closest_snap.over_odds
          old_under_odds := closest_snap.under_odds
          new_over_odds := current_over_odds
          new_under_odds := current_under_odds }

/-- Modelled from the spec: the baseline group as §4.4 step 2 words it —
result-annotated movements whose drop is smaller than the *analysis run's
configured thresholds* (`movement_pct > −threshold_pct` and
`movement_absolute > −threshold_abs`).  Stated for comparison with
`baseline_movements`, which is what the code computes. -/
def specBaselineGroup (db : List LineMovement) (prop_type : Option PropType)
    (threshold_pct threshold_abs : ℚ) (start_date end_date : Option ℚ) :
    List LineMovement :=
  db.filter (fun m =>
    m.actual_yards.isSome
    && propFilter prop_type m
    && dateFilter start_date end_date m
    && decide (-threshold_pct < m.movement_pct)
    && decide (-threshold_abs < m.movement_absolute))

/-- Projection used to state counterexamples on optional analysis results. -/
def baselineSizeOf (o : Option AnalysisResult) : Option ℕ :=
  match o with
  | none => none
  | some r => some r.baseline_sample_size

/-! ### Concrete fixtures used by scenario theorems and witnesses -/

/-- A trivial numeric backend (the abstracted scipy routines all return 0);
used only to instantiate theorems that hold for every backend. -/
def nb0 : NumericBackend :=
  { chi2_sf1 := fun _ => 0, norm_ppf := fun _ => 0, sqrtQ := fun _ => 0 }

/-- The default settings of `config.py`. -/
def s0 : Settings := {}

/-- Scenario A configuration: `threshold_pct=10`, `threshold_abs=5`,
`hours_before=3`. -/
def cfg5 : DetectorConfig := { threshold_pct := 10, threshold_abs := 5, hours_before := 3 }

/-- Scenario A series: observations at t = −6h (line 52.5) and t = −0.5h
(line 46.0), kickoff at t = 0. -/
def snaps5 : List Snapshot :=
  [ { event_id := "e1", player_name := "p1", prop_type := .rushing_yards,
      snapshot_time := -21600, consensus_line := some (105/2) },
    { event_id := "e1", player_name := "p1", prop_type := .rushing_yards,
      snapshot_time := -1800, consensus_line := some 46 } ]

/-- The movement the detector emits on Scenario A. -/
def mv5 : LineMovement :=
  { event_id := "e1", player_name := "p1", prop_type := .rushing_yards,
    initial_line := 105/2, final_line := 46,
    initial_snapshot_time := -21600, final_snapshot_time := -1800,
    movement_absolute := -13/2, movement_pct := -260/21,
    hours_before_kickoff := 1/2, game_commence_time := 0 }

/-- Scenario C stats row: the player ran for 40 yards. -/
def statsC : List PlayerGameStats :=
  [ { event_id := "e1", player_name := "p1", rushing_yards := some 40 } ]

/-- A re-detected movement for the same (event, player, prop-type) as
`mv5`, with updated values and an attached outcome. -/
def mv9 : LineMovement :=
  { mv5 with
      final_line := 44
      movement_absolute := -17/2
      movement_pct := -340/21
      actual_yards := some 40
      went_over := some false
      went_under := some true }

/-- Projection used to state concrete facts on optional analysis results. -/
def chiOf (o : Option AnalysisResult) : Option ℚ :=
  match o with
  | none => none
  | some r => some r.chi_square_statistic

/-- A result-annotated movement with a moderate drop (−15%, −6 yards):
inside the spec's claimed baseline for analysis thresholds (20, 8), outside
the code's settings-threshold baseline. -/
def mvX : LineMovement :=
  { mv5 with
      movement_pct := -15
      movement_absolute := -6
      hours_before_kickoff := 1
      actual_yards := some 80
      went_over := some true
      went_under := some false }

/-- A result-annotated movement with a large drop (−25%, −9 yards). -/
def mvY : LineMovement :=
  { mv5 with
      event_id := "e2"
      movement_pct := -25
      movement_absolute := -9
      hours_before_kickoff := 1
      actual_yards := some 70
      went_over := some false
      went_under := some true }

/-- Movement table for the C2 comparison. -/
def dbC2 : List LineMovement := [mvX, mvY]

/-- Movement table with one large-drop annotated movement and no baseline
movement at all. -/
def dbC10 : List LineMovement := [mvY]

/-- Two observations one hour apart (Scenario E's input): the older one at
line 50, the latest at line 46. -/
def bsC1 : List BookObs :=
  [ { snapshot_time := -3600, line := 50 },
    { snapshot_time := 0, line := 46 } ]

/-- Evaluation of the detector on Scenario A. -/
lemma detect_snaps5_eval : detect_late_movement cfg5 snaps5 0 = some mv5 := by
  norm_num [detect_late_movement, select_endpoints, early_snapshots, late_snapshots,
    late_cutoff, calculate_movement, is_significant_movement, roundDec, roundHalfEven,
    List.filter, cfg5, snaps5, mv5]

/-- C5: For the input series [(t=−6h, line=52.5), (t=−0.5h, line=46.0)] with
kickoff at t=0 and configuration hours_before=3, threshold_pct=10,
threshold_abs=5, the detector emits a movement with absolute = −6.5,
percent ≈ −12.4% (exactly −260/21), flagged significant, and
hours_before_kickoff ≈ 0.5 (exactly 0.5). -/
theorem C5_scenario_a :
    detect_late_movement cfg5 snaps5 0 = some mv5
    ∧ mv5.movement_absolute = -13/2
    ∧ mv5.movement_pct = -260/21
    ∧ |mv5.movement_pct - (-124/10)| < 2/100
    ∧ is_significant_movement cfg5 mv5.movement_absolute mv5.movement_pct
    ∧ mv5.hours_before_kickoff = 1/2 := by
  refine ⟨detect_snaps5_eval, rfl, rfl, by rw [abs_lt]; constructor <;> norm_num [mv5], ?_, rfl⟩
  norm_num [is_significant_movement, cfg5, mv5]

/-- C8: chi-square degenerate cases (zero sample, zero expected under-rate,
a zero expected cell) return `(0, 1)` instead of raising, and a zero
initial line yields a 0% change in `calculate_movement`. -/
theorem C8_degenerate_defaults :
    (∀ (nb : NumericBackend) (u t : ℕ) (r : ℚ),
        t = 0 ∨ r = 0 ∨ (t : ℚ) * r = 0 ∨ (t : ℚ) * (1 - r) = 0 →
        perform_chi_square_test nb u t r = (0, 1))
    ∧ (∀ initial_line final_line : ℚ, initial_line = 0 →
        (calculate_movement initial_line final_line).2 = 0) := by
  constructor
  · intro nb u t r h
    rcases h with h | h | h | h
    · simp [perform_chi_square_test, h]
    · simp [perform_chi_square_test, h]
    · rcases mul_eq_zero.mp h with h1 | h1
      · simp [perform_chi_square_test, Nat.cast_eq_zero.mp h1]
      · simp [perform_chi_square_test, h1]
    · rcases mul_eq_zero.mp h with h1 | h1
      · simp [perform_chi_square_test, Nat.cast_eq_zero.mp h1]
      · by_cases hc : t = 0 ∨ r = 0
        · simp [perform_chi_square_test, hc]
        · simp only [perform_chi_square_test, hc, if_false]
          simp [h1]
  · intro i f h
    simp [calculate_movement, h]

/-- Witness for C8 at concrete degenerate inputs. -/
theorem C8_degenerate_defaults_witness :
    perform_chi_square_test nb0 3 0 (1/2) = (0, 1)
    ∧ (calculate_movement 0 5).2 = 0 :=
  ⟨C8_degenerate_defaults.1 nb0 3 0 (1/2) (Or.inl rfl),
   C8_degenerate_defaults.2 0 5 rfl⟩

/-- C6: once the result matcher annotates a movement with an actual value,
`went_over` and `went_under` are the strict comparisons against the final
line, they are never both true, and both are false exactly on a push. -/
theorem C6_outcome_flags (stats : List PlayerGameStats) (m : LineMovement) (a : ℤ)
    (hfresh : m.actual_yards = none)
    (h : (match_one stats m).actual_yards = some a) :
    (match_one stats m).went_over = some (decide (m.final_line < (a : ℚ)))
    ∧ (match_one stats m).went_under = some (decide ((a : ℚ) < m.final_line))
    ∧ ¬ ((match_one stats m).went_over = some true
          ∧ (match_one stats m).went_under = some true)
    ∧ (((match_one stats m).went_over = some false
          ∧ (match_one stats m).went_under = some false)
        ↔ (a : ℚ) = m.final_line) := by
  have flags : ∀ b : ℤ,
      ¬ (some (decide (m.final_line < (b : ℚ))) = some true
          ∧ some (decide ((b : ℚ) < m.final_line)) = some true) := by
    intro b hb
    simp only [Option.some.injEq, decide_eq_true_eq] at hb
    exact absurd (lt_trans hb.1 hb.2) (lt_irrefl _)
  have push : ∀ b : ℤ,
      (some (decide (m.final_line < (b : ℚ))) = some false
        ∧ some (decide ((b : ℚ) < m.final_line)) = some false) ↔ (b : ℚ) = m.final_line := by
    intro b
    simp only [Option.some.injEq, decide_eq_false_iff_not, not_lt]
    constructor
    · intro hb
      exact le_antisymm hb.1 hb.2
    · intro hb
      exact ⟨le_of_eq hb, ge_of_eq hb⟩
  rcases hfind : stats.find? (fun s =>
      decide (s.event_id = m.event_id) && decide (s.player_name = m.player_name)) with _ | s
  · simp only [match_one, hfind] at h
    rw [hfresh] at h
    exact absurd h (by simp)
  · rcases hp : m.prop_type with _ | _
    · rcases hact : s.rushing_yards with _ | b
      · simp only [match_one, hfind, hp, hact] at h
        rw [hfresh] at h
        exact absurd h (by simp)
      · simp only [match_one, hfind, hp, hact] at h ⊢
        simp only [Option.some.injEq] at h
        subst h
        exact ⟨rfl, rfl, flags b, push b⟩
    · rcases hact : s.receiving_yards with _ | b
      · simp only [match_one, hfind, hp, hact] at h
        rw [hfresh] at h
        exact absurd h (by simp)
      · simp only [match_one, hfind, hp, hact] at h ⊢
        simp only [Option.some.injEq] at h
        subst h
        exact ⟨rfl, rfl, flags b, push b⟩

/-- Witness for C6 on Scenario C (final_line = 46, actual = 40):
went_under and not went_over, and the flags are not both true. -/
theorem C6_outcome_flags_witness :
    (match_one statsC mv5).went_under = some true
    ∧ (match_one statsC mv5).went_over = some false
    ∧ ¬ ((match_one statsC mv5).went_over = some true
          ∧ (match_one statsC mv5).went_under = some true) := by
  have h := C6_outcome_flags statsC mv5 40 rfl rfl
  refine ⟨?_, ?_, h.2.2.1⟩
  · rw [h.2.1]
    simp only [Option.some.injEq, decide_eq_true_eq]
    norm_num [mv5]
  · rw [h.1]
    simp only [Option.some.injEq, decide_eq_false_iff_not, not_lt]
    norm_num [mv5]

/-- The total of the rates dict is always the length of its input. -/
lemma rates_total (l : List LineMovement) : (calculate_over_under_rates l).total = l.length := by
  by_cases h : l.length = 0
  · simp [calculate_over_under_rates, h]
  · simp [calculate_over_under_rates, h]

/-- C7: the analyzer returns `none` exactly when the test group is empty,
and a zero-total population yields null over/under rates rather than a
division by zero. -/
theorem C7_empty_test_group (nb : NumericBackend) (db : List LineMovement)
    (settings : Settings) (name : String) (prop : Option PropType)
    (tp ta th sd ed : Option ℚ) :
    (run_analysis nb db settings name prop tp ta th sd ed = none
      ↔ analysis_test_group db settings prop tp ta th sd ed = [])
    ∧ (∀ movements : List LineMovement, movements = [] →
        (calculate_over_under_rates movements).over_rate = none
        ∧ (calculate_over_under_rates movements).under_rate = none) := by
  constructor
  · by_cases hc :
      (calculate_over_under_rates (analysis_test_group db settings prop tp ta th sd ed)).total = 0
    · have hnone : run_analysis nb db settings name prop tp ta th sd ed = none := by
        simp [run_analysis, hc]
      have hempty : analysis_test_group db settings prop tp ta th sd ed = [] := by
        rw [rates_total] at hc
        exact List.length_eq_zero.mp hc
      simp [hnone, hempty]
    · constructor
      · intro h
        exfalso
        simp [run_analysis, hc] at h
      · intro h
        exfalso
        apply hc
        rw [rates_total, h, List.length_nil]
  · intro movements hmv
    subst hmv
    simp [calculate_over_under_rates]

/-- Witness for C7: on an empty movement table the analyzer returns `none`
and the rates dict carries null rates. -/
theorem C7_empty_test_group_witness :
    run_analysis nb0 [] s0 "empty" none none none none none none = none
    ∧ (calculate_over_under_rates []).over_rate = none
    ∧ (calculate_over_under_rates []).under_rate = none := by
  have h := C7_empty_test_group nb0 [] s0 "empty" none none none none none none
  exact ⟨h.1.mpr (by simp [analysis_test_group, get_movements_with_results]),
    (h.2 [] rfl).1, (h.2 [] rfl).2⟩

/-- The endpoints chosen by `select_endpoints` are observations of the
series. -/
lemma select_endpoints_mem (cfg : DetectorConfig) (snaps : List Snapshot) (t : ℚ)
    (e l : Snapshot) (h : select_endpoints cfg snaps t = some (e, l)) :
    e ∈ snaps ∧ l ∈ snaps := by
  rw [select_endpoints] at h
  by_cases hc1 : snaps.length < 2
  · rw [if_pos hc1] at h
    exact Option.noConfusion h
  · rw [if_neg hc1] at h
    by_cases hc2 : (early_snapshots cfg snaps t).isEmpty || (late_snapshots cfg snaps t).isEmpty
    · rw [if_pos hc2] at h
      rcases hh : snaps.head? with _ | a
      · simp only [hh] at h
        exact Option.noConfusion h
      · rcases hg : snaps.getLast? with _ | b
        · simp only [hh, hg] at h
          exact Option.noConfusion h
        · simp only [hh, hg, Option.some.injEq, Prod.mk.injEq] at h
          rw [← h.1, ← h.2]
          exact ⟨List.mem_of_mem_head? (Option.mem_def.mpr hh),
            List.mem_of_mem_getLast? (Option.mem_def.mpr hg)⟩
    · rw [if_neg hc2] at h
      rcases hh : (early_snapshots cfg snaps t).getLast? with _ | a
      · simp only [hh] at h
        exact Option.noConfusion h
      · rcases hg : (late_snapshots cfg snaps t).getLast? with _ | b
        · simp only [hh, hg] at h
          exact Option.noConfusion h
        · simp only [hh, hg, Option.some.injEq, Prod.mk.injEq] at h
          rw [← h.1, ← h.2]
          have ha := List.mem_of_mem_getLast? (Option.mem_def.mpr hh)
          have hb := List.mem_of_mem_getLast? (Option.mem_def.mpr hg)
          exact ⟨(List.mem_filter.mp ha).1, (List.mem_filter.mp hb).1⟩

/-- Characterization of a detected movement: its line fields come from the
selected endpoints, its movement fields from `calculate_movement`, and it
passed the significance check. -/
lemma detect_spec (cfg : DetectorConfig) (snaps : List Snapshot) (t : ℚ) (m : LineMovement)
    (h : detect_late_movement cfg snaps t = some m) :
    ∃ e l : Snapshot, select_endpoints cfg snaps t = some (e, l)
      ∧ e.consensus_line = some m.initial_line
      ∧ l.consensus_line = some m.final_line
      ∧ m.movement_absolute = m.final_line - m.initial_line
      ∧ m.movement_pct =
          (if m.initial_line ≠ 0 then m.movement_absolute / m.initial_line * 100 else 0)
      ∧ is_significant_movement cfg m.movement_absolute m.movement_pct := by
  rcases hsel : select_endpoints cfg snaps t with _ | ⟨e, l⟩
  · simp only [detect_late_movement, hsel] at h
    exact Option.noConfusion h
  · cases snaps with
    | nil =>
      rw [select_endpoints] at hsel
      simp at hsel
    | cons s0 rest =>
      simp only [detect_late_movement, hsel] at h
      rcases hce : e.consensus_line with _ | il
      · simp only [hce] at h
        exact Option.noConfusion h
      · rcases hcl : l.consensus_line with _ | fl
        · simp only [hce, hcl] at h
          exact Option.noConfusion h
        · simp only [hce, hcl] at h
          by_cases hsig : is_significant_movement cfg
              (calculate_movement il fl).1 (calculate_movement il fl).2
          · rw [if_pos hsig] at h
            injection h with h2
            subst h2
            exact ⟨e, l, rfl, hce, hcl, rfl, rfl, hsig⟩
          · rw [if_neg hsig] at h
            exact Option.noConfusion h

/-- C3: every emitted movement satisfies the disjunctive drop rule, and —
for positive thresholds and nonnegative consensus lines — no movement with
a positive absolute change is ever emitted. -/
theorem C3_drops_only (cfg : DetectorConfig) (snaps : List Snapshot) (t : ℚ)
    (m : LineMovement) (h : detect_late_movement cfg snaps t = some m) :
    (m.movement_absolute ≤ -cfg.threshold_abs ∨ m.movement_pct ≤ -cfg.threshold_pct)
    ∧ (0 < cfg.threshold_abs → 0 < cfg.threshold_pct →
        (∀ s ∈ snaps, ∀ x : ℚ, s.consensus_line = some x → 0 ≤ x) →
        ¬ 0 < m.movement_absolute) := by
  obtain ⟨e, l, hsel, hce, hcl, habs, hpct, hsig⟩ := detect_spec cfg snaps t m h
  refine ⟨hsig, ?_⟩
  intro hta htp hlines hpos
  have hmem := (select_endpoints_mem cfg snaps t e l hsel).1
  have hinit : 0 ≤ m.initial_line := hlines e hmem m.initial_line hce
  rcases hsig with hs | hs
  · linarith
  · rcases eq_or_lt_of_le hinit with h0 | h0
    · have hne : ¬ (m.initial_line ≠ 0) := by simp [← h0]
      rw [hpct, if_neg hne] at hs
      linarith
    · rw [hpct, if_pos (ne_of_gt h0)] at hs
      have hq := mul_pos (div_pos hpos h0) (by norm_num : (0 : ℚ) < 100)
      linarith

/-- Witness for C3 on Scenario A: the emitted movement is a qualifying
drop and its absolute change is not positive. -/
theorem C3_drops_only_witness :
    (mv5.movement_absolute ≤ -cfg5.threshold_abs ∨ mv5.movement_pct ≤ -cfg5.threshold_pct)
    ∧ ¬ 0 < mv5.movement_absolute := by
  have h := C3_drops_only cfg5 snaps5 0 mv5 detect_snaps5_eval
  refine ⟨h.1, h.2 (by norm_num [cfg5]) (by norm_num [cfg5]) ?_⟩
  intro s hs x hx
  simp only [snaps5, List.mem_cons, List.not_mem_nil, or_false] at hs
  rcases hs with h1 | h1 <;> rw [h1] at hx <;>
    simp only [Option.some.injEq] at hx <;> rw [← hx] <;> norm_num

/-- The last element of a list survives a filter it satisfies, as the last
element of the filtered list. -/
lemma getLast?_filter {α : Type} (p : α → Bool) :
    ∀ (l : List α) (z : α), l.getLast? = some z → p z = true →
      (l.filter p).getLast? = some z := by
  intro l
  induction l with
  | nil =>
    intro z hz _
    exact Option.noConfusion hz
  | cons x t ih =>
    intro z hz hp
    cases t with
    | nil =>
      simp only [List.getLast?_singleton, Option.some.injEq] at hz
      subst hz
      simp [List.filter_cons, hp]
    | cons y t2 =>
      rw [List.getLast?_cons_cons] at hz
      have hres := ih z hz hp
      rw [List.filter_cons]
      by_cases hx : p x = true
      · rw [if_pos hx]
        rcases hf : List.filter p (y :: t2) with _ | ⟨w, ws⟩
        · rw [hf] at hres
          exact Option.noConfusion hres
        · rw [hf] at hres
          rw [List.getLast?_cons_cons]
          exact hres
      · rw [if_neg hx]
        exact hres

/-- In a `Pairwise R` list, every element is the last one or relates to it. -/
lemma pairwise_getLast_max {α : Type} (R : α → α → Prop) :
    ∀ (l : List α) (z : α), l.Pairwise R → l.getLast? = some z →
      ∀ x ∈ l, x = z ∨ R x z := by
  intro l
  induction l with
  | nil =>
    intro z _ hz
    exact Option.noConfusion hz
  | cons a t ih =>
    intro z hp hz x hx
    rcases List.pairwise_cons.mp hp with ⟨ha, hpt⟩
    cases t with
    | nil =>
      simp only [List.getLast?_singleton, Option.some.injEq] at hz
      subst hz
      simp only [List.mem_singleton] at hx
      exact Or.inl hx
    | cons y t2 =>
      rw [List.getLast?_cons_cons] at hz
      rcases List.mem_cons.mp hx with hax | hxt
      · subst hax
        exact Or.inr (ha z (List.mem_of_mem_getLast? (Option.mem_def.mpr hz)))
      · exact ih z hpt hz x hxt

/-- C4: with at least two chronologically ordered observations, when both
partitions are non-empty the baseline is the last early observation
(strictly before the cutoff) and the comparison point is the series' last
observation; when either partition is empty both fall back to the series'
first and last observation. -/
theorem C4_endpoint_selection (cfg : DetectorConfig) (snaps : List Snapshot) (t : ℚ)
    (h2 : 2 ≤ snaps.length) (hne : snaps ≠ [])
    (hsorted : snaps.Pairwise (fun a b => a.snapshot_time ≤ b.snapshot_time)) :
    ((hE : early_snapshots cfg snaps t ≠ []) → (hL : late_snapshots cfg snaps t ≠ []) →
      select_endpoints cfg snaps t
          = some ((early_snapshots cfg snaps t).getLast hE, snaps.getLast hne)
        ∧ ((early_snapshots cfg snaps t).getLast hE).snapshot_time < late_cutoff cfg t)
    ∧ ((early_snapshots cfg snaps t = [] ∨ late_snapshots cfg snaps t = []) →
        select_endpoints cfg snaps t = some (snaps.head hne, snaps.getLast hne)) := by
  constructor
  · intro hE hL
    have hzlast : snaps.getLast? = some (snaps.getLast hne) := List.getLast?_eq_getLast snaps hne
    obtain ⟨y, hy⟩ := List.exists_mem_of_ne_nil _ hL
    have hy2 := List.mem_filter.mp hy
    have hycut : late_cutoff cfg t ≤ y.snapshot_time := of_decide_eq_true hy2.2
    have hyz := pairwise_getLast_max _ snaps (snaps.getLast hne) hsorted hzlast y hy2.1
    have hcutlast : late_cutoff cfg t ≤ (snaps.getLast hne).snapshot_time := by
      rcases hyz with h | h
      · rw [← h]; exact hycut
      · linarith
    have hlateLast : (late_snapshots cfg snaps t).getLast? = some (snaps.getLast hne) := by
      rw [late_snapshots]
      exact getLast?_filter _ snaps _ hzlast (decide_eq_true hcutlast)
    have hEgl : (early_snapshots cfg snaps t).getLast?
        = some ((early_snapshots cfg snaps t).getLast hE) :=
      List.getLast?_eq_getLast _ hE
    constructor
    · rw [select_endpoints, if_neg (by omega : ¬ snaps.length < 2),
        if_neg (by simp [List.isEmpty_iff, hE, hL]), hEgl, hlateLast]
    · have hmem := List.getLast_mem hE
      exact of_decide_eq_true (List.mem_filter.mp hmem).2
  · intro hor
    rw [select_endpoints, if_neg (by omega : ¬ snaps.length < 2),
      if_pos (by rcases hor with h | h <;> simp [List.isEmpty_iff, h]),
      List.head?_eq_head hne, List.getLast?_eq_getLast snaps hne]

/-- The Scenario A series is non-empty. -/
lemma snaps5_ne : snaps5 ≠ [] := by simp [snaps5]

/-- Scenario A has a non-empty early partition. -/
lemma early5_ne : early_snapshots cfg5 snaps5 0 ≠ [] := by
  norm_num [early_snapshots, late_cutoff, cfg5, snaps5, List.filter_cons]

/-- Scenario A has a non-empty late partition. -/
lemma late5_ne : late_snapshots cfg5 snaps5 0 ≠ [] := by
  norm_num [late_snapshots, late_cutoff, cfg5, snaps5, List.filter_cons]

/-- Witness for C4 on Scenario A: both partitions non-empty, the selected
baseline is the last early snapshot and lies strictly before the cutoff,
the comparison is the series' last snapshot. -/
theorem C4_endpoint_selection_witness :
    select_endpoints cfg5 snaps5 0
        = some ((early_snapshots cfg5 snaps5 0).getLast early5_ne, snaps5.getLast snaps5_ne)
      ∧ ((early_snapshots cfg5 snaps5 0).getLast early5_ne).snapshot_time < late_cutoff cfg5 0 :=
  (C4_endpoint_selection cfg5 snaps5 0 (by norm_num [snaps5]) snaps5_ne
    (by norm_num [snaps5, List.pairwise_cons])).1 early5_ne late5_ne

/-- Updating a row in place leaves its natural key unchanged (the key
columns are not among the overwritten fields). -/
lemma applyUpdate_key (e m : LineMovement) : movementKey (applyUpdate e m) = movementKey e := rfl

/-- `replaceFirst` preserves the list of natural keys. -/
lemma replaceFirst_map_key (m : LineMovement) :
    ∀ l : List LineMovement, (replaceFirst l m).map movementKey = l.map movementKey := by
  intro l
  induction l with
  | nil => rfl
  | cons e rest ih =>
    rw [replaceFirst]
    by_cases h : same_key e m = true
    · rw [if_pos h]
      simp [applyUpdate_key]
    · rw [if_neg h]
      simp [ih]

/-- `replaceFirst` preserves length. -/
lemma replaceFirst_length (m : LineMovement) :
    ∀ l : List LineMovement, (replaceFirst l m).length = l.length := by
  intro l
  induction l with
  | nil => rfl
  | cons e rest ih =>
    rw [replaceFirst]
    by_cases h : same_key e m = true
    · rw [if_pos h]
      rfl
    · rw [if_neg h]
      simp [ih]

/-- When a row with the movement's key exists, `replaceFirst` leaves a row
carrying the movement's key and its newly detected values. -/
lemma replaceFirst_found (m : LineMovement) :
    ∀ l : List LineMovement, l.any (fun e => same_key e m) = true →
      ∃ r ∈ replaceFirst l m, movementKey r = movementKey m
        ∧ r.initial_line = m.initial_line ∧ r.final_line = m.final_line
        ∧ r.movement_absolute = m.movement_absolute ∧ r.movement_pct = m.movement_pct
        ∧ r.actual_yards = m.actual_yards ∧ r.went_over = m.went_over
        ∧ r.went_under = m.went_under := by
  intro l
  induction l with
  | nil =>
    intro h
    exact absurd h (by simp)
  | cons e rest ih =>
    intro h
    rw [replaceFirst]
    by_cases he : same_key e m = true
    · rw [if_pos he]
      refine ⟨applyUpdate e m, List.mem_cons_self _ _, ?_, rfl, rfl, rfl, rfl, rfl, rfl, rfl⟩
      rw [applyUpdate_key]
      exact of_decide_eq_true he
    · rw [if_neg he]
      have hrest : rest.any (fun e => same_key e m) = true := by
        rcases List.any_eq_true.mp h with ⟨a, ha, hk⟩
        rcases List.mem_cons.mp ha with ha | ha
        · rw [ha] at hk
          exact absurd hk he
        · exact List.any_eq_true.mpr ⟨a, ha, hk⟩
      obtain ⟨r, hr, hprops⟩ := ih hrest
      exact ⟨r, List.mem_cons_of_mem e hr, hprops⟩

/-- Invariant of the `save_movements` loop: the persistent rows keep the
original key list, and every pending add has a key absent from the
original rows and distinct from every other pending key. -/
lemma save_fold_inv (dbkeys : List (String × String × PropType)) :
    ∀ (ms cur pend : List LineMovement),
      cur.map movementKey = dbkeys →
      (∀ b ∈ pend, movementKey b ∉ dbkeys) →
      pend.Pairwise (fun a b => movementKey a ≠ movementKey b) →
      (∀ b ∈ pend, ∀ m ∈ ms, movementKey b ≠ movementKey m) →
      ms.Pairwise (fun a b => movementKey a ≠ movementKey b) →
      ((ms.foldl save_step (cur, pend)).1.map movementKey = dbkeys
        ∧ (∀ b ∈ (ms.foldl save_step (cur, pend)).2, movementKey b ∉ dbkeys)
        ∧ (ms.foldl save_step (cur, pend)).2.Pairwise
            (fun a b => movementKey a ≠ movementKey b)) := by
  intro ms
  induction ms with
  | nil =>
    intro cur pend h1 h2 h3 _ _
    exact ⟨h1, h2, h3⟩
  | cons m rest ih =>
    intro cur pend h1 h2 h3 h4 h5
    rw [List.foldl_cons]
    rcases List.pairwise_cons.mp h5 with ⟨hm, hrest⟩
    by_cases hc : cur.any (fun e => same_key e m) = true
    · have hstep : save_step (cur, pend) m = (replaceFirst cur m, pend) := by
        simp [save_step, hc]
      rw [hstep]
      apply ih
      · rw [replaceFirst_map_key, h1]
      · exact h2
      · exact h3
      · intro b hb mm hmm
        exact h4 b hb mm (List.mem_cons_of_mem m hmm)
      · exact hrest
    · have hcf : cur.any (fun e => same_key e m) = false := by
        revert hc
        cases cur.any (fun e => same_key e m) <;> simp
      have hstep : save_step (cur, pend) m = (cur, pend ++ [m]) := by
        simp [save_step, hcf]
      rw [hstep]
      apply ih
      · exact h1
      · intro q hq
        rcases List.mem_append.mp hq with hq | hq
        · exact h2 q hq
        · simp only [List.mem_singleton] at hq
          rw [hq, ← h1]
          intro hcontra
          rcases List.mem_map.mp hcontra with ⟨e, he, hkey⟩
          have hany : cur.any (fun x => same_key x m) = true :=
            List.any_eq_true.mpr ⟨e, he, by simp [same_key, hkey]⟩
          rw [hany] at hcf
          exact Bool.noConfusion hcf
      · rw [List.pairwise_append]
        refine ⟨h3, List.pairwise_singleton _ _, ?_⟩
        intro a ha q hq
        simp only [List.mem_singleton] at hq
        rw [hq]
        exact h4 a ha m (List.mem_cons_self m rest)
      · intro q hq mm hmm
        rcases List.mem_append.mp hq with hq | hq
        · exact h4 q hq mm (List.mem_cons_of_mem m hmm)
        · simp only [List.mem_singleton] at hq
          rw [hq]
          exact hm mm hmm
      · exact hrest

/-- C9: saving detected movements (at most one per key in a batch) keeps at
most one stored movement per (event, player, prop-type); a key hit
overwrites the existing row's detected fields in place without changing
the row count, a key miss appends the new row. -/
theorem C9_upsert_unique (db ms : List LineMovement)
    (hdb : db.Pairwise (fun a b => movementKey a ≠ movementKey b))
    (hms : ms.Pairwise (fun a b => movementKey a ≠ movementKey b)) :
    (save_movements db ms).Pairwise (fun a b => movementKey a ≠ movementKey b)
    ∧ (∀ m : LineMovement, db.any (fun e => same_key e m) = true →
        save_movements db [m] = replaceFirst db m
        ∧ (save_movements db [m]).length = db.length
        ∧ ∃ r ∈ save_movements db [m], movementKey r = movementKey m
            ∧ r.initial_line = m.initial_line ∧ r.final_line = m.final_line
            ∧ r.movement_absolute = m.movement_absolute ∧ r.movement_pct = m.movement_pct
            ∧ r.actual_yards = m.actual_yards ∧ r.went_over = m.went_over
            ∧ r.went_under = m.went_under)
    ∧ (∀ m : LineMovement, db.any (fun e => same_key e m) = false →
        save_movements db [m] = db ++ [m]) := by
  refine ⟨?_, ?_, ?_⟩
  · obtain ⟨hk, hpendk, hpendpw⟩ := save_fold_inv (db.map movementKey) ms db [] rfl
      (by simp) (by simp) (by simp) hms
    rw [save_movements, List.pairwise_append]
    refine ⟨?_, hpendpw, ?_⟩
    · have := (List.pairwise_map.mpr hdb :
        (db.map movementKey).Pairwise (fun a b => a ≠ b))
      rw [← hk] at this
      exact List.pairwise_map.mp this
    · intro a ha b hb
      intro hab
      apply hpendk b hb
      rw [← hk, ← hab]
      exact List.mem_map_of_mem movementKey ha
  · intro m hc
    have heq : save_movements db [m] = replaceFirst db m := by
      simp [save_movements, save_step, hc]
    refine ⟨heq, ?_, ?_⟩
    · rw [heq, replaceFirst_length]
    · rw [heq]
      exact replaceFirst_found m db hc
  · intro m hc
    simp [save_movements, save_step, hc]

/-- Witness for C9: re-saving a movement for an existing key keeps a single
row, updating it in place. -/
theorem C9_upsert_unique_witness :
    (save_movements [mv5] [mv9]).Pairwise (fun a b => movementKey a ≠ movementKey b)
    ∧ save_movements [mv5] [mv9] = replaceFirst [mv5] mv9
    ∧ (save_movements [mv5] [mv9]).length = 1 := by
  have h := C9_upsert_unique [mv5] [mv9] (List.pairwise_singleton _ _)
    (List.pairwise_singleton _ _)
  have hc : List.any [mv5] (fun e => same_key e mv9) = true := by
    simp [same_key, movementKey, mv5, mv9]
  obtain ⟨heq, hlen, _⟩ := h.2.1 mv9 hc
  exact ⟨h.1, heq, by rw [hlen]; rfl⟩

/-- C2 (amended): the baseline group of `run_analysis` is selected with the
*settings* (detection) thresholds, independent of the analysis run's
configured thresholds, and the result's baseline fields come from exactly
that group. -/
theorem C2_baseline_uses_settings (nb : NumericBackend) (db : List LineMovement)
    (settings : Settings) (name : String) (prop : Option PropType)
    (tp ta th sd ed : Option ℚ) (r : AnalysisResult)
    (h : run_analysis nb db settings name prop tp ta th sd ed = some r) :
    r.baseline_sample_size = (baseline_movements db settings prop sd ed).length
    ∧ r.baseline_over_rate
        = (calculate_over_under_rates (baseline_movements db settings prop sd ed)).over_rate
    ∧ calculate_baseline_rates db settings prop sd ed
        = calculate_over_under_rates (baseline_movements db settings prop sd ed) := by
  by_cases hc :
      (calculate_over_under_rates (analysis_test_group db settings prop tp ta th sd ed)).total = 0
  · simp [run_analysis, hc] at h
  · simp only [run_analysis] at h
    rw [if_neg hc] at h
    injection h with h2
    refine ⟨?_, ?_, rfl⟩
    · rw [← h2]
      show (calculate_baseline_rates db settings prop sd ed).total = _
      rw [calculate_baseline_rates]
      exact rates_total _
    · rw [← h2]
      show (calculate_baseline_rates db settings prop sd ed).over_rate = _
      rw [calculate_baseline_rates]

/-- The C2 test group for analysis thresholds (20, 8, 3) is the single
large-drop movement, so the analyzer produces a result row. -/
lemma c2_test_total :
    (calculate_over_under_rates
      (analysis_test_group dbC2 s0 none (some 20) (some 8) (some 3) none none)).total = 1 := by
  norm_num [analysis_test_group, get_movements_with_results, orDefault, numFilter, propFilter,
    dateFilter, calculate_over_under_rates, dbC2, mvX, mvY, mv5, s0, List.filter_cons]

/-- Witness for C2: on the concrete table the stored baseline sample size
is the size of the settings-threshold baseline group. -/
theorem C2_baseline_uses_settings_witness :
    baselineSizeOf (run_analysis nb0 dbC2 s0 "thesis" none (some 20) (some 8) (some 3) none none)
      = some (baseline_movements dbC2 s0 none none none).length := by
  cases hEq : run_analysis nb0 dbC2 s0 "thesis" none (some 20) (some 8) (some 3) none none with
  | none => exact absurd hEq (by simp [run_analysis, c2_test_total])
  | some r =>
    have h := C2_baseline_uses_settings nb0 dbC2 s0 "thesis" none
      (some 20) (some 8) (some 3) none none r hEq
    simp only [baselineSizeOf]
    rw [h.1]

/-- Counterexample for C2 as stated: with analysis thresholds (20, 8) the
spec's baseline (movements above the *analysis* thresholds) contains one
movement, but the analyzer's stored baseline sample size is 0 — the code
filters the baseline with the settings thresholds (10, 5) instead. -/
theorem C2_counterexample :
    baselineSizeOf (run_analysis nb0 dbC2 s0 "thesis" none (some 20) (some 8) (some 3) none none)
      = some 0
    ∧ (specBaselineGroup dbC2 none 20 8 none none).length = 1
    ∧ baselineSizeOf (run_analysis nb0 dbC2 s0 "thesis" none (some 20) (some 8) (some 3)
        none none) ≠ some ((specBaselineGroup dbC2 none 20 8 none none).length) := by
  have h1 : baselineSizeOf
      (run_analysis nb0 dbC2 s0 "thesis" none (some 20) (some 8) (some 3) none none)
        = some 0 := by
    cases hEq : run_analysis nb0 dbC2 s0 "thesis" none (some 20) (some 8) (some 3) none none with
    | none => exact absurd hEq (by simp [run_analysis, c2_test_total])
    | some r =>
      simp only [baselineSizeOf]
      have hb : r.baseline_sample_size = 0 := by
        by_cases hc : (calculate_over_under_rates
            (analysis_test_group dbC2 s0 none (some 20) (some 8) (some 3) none none)).total = 0
        · simp [run_analysis, hc] at hEq
        · simp only [run_analysis] at hEq
          rw [if_neg hc] at hEq
          injection hEq with h2
          rw [← h2]
          show (calculate_baseline_rates dbC2 s0 none none none).total = 0
          norm_num [calculate_baseline_rates, baseline_movements, calculate_over_under_rates,
            propFilter, dateFilter, dbC2, mvX, mvY, mv5, s0, List.filter_cons]
      rw [hb]
  have h2 : (specBaselineGroup dbC2 none 20 8 none none).length = 1 := by
    norm_num [specBaselineGroup, propFilter, dateFilter, dbC2, mvX, mvY, mv5, List.filter_cons]
  refine ⟨h1, h2, ?_⟩
  rw [h1, h2]
  simp

/-- C10: with a non-empty test group, a null (empty baseline) or exactly
zero baseline under-rate makes the chi-square comparison run against an
expected under-rate of one half. -/
theorem C10_null_baseline_half (nb : NumericBackend) (db : List LineMovement)
    (settings : Settings) (name : String) (prop : Option PropType)
    (tp ta th sd ed : Option ℚ) (r : AnalysisResult)
    (hr : run_analysis nb db settings name prop tp ta th sd ed = some r)
    (hb : (calculate_baseline_rates db settings prop sd ed).under_rate = none
        ∨ (calculate_baseline_rates db settings prop sd ed).under_rate = some 0) :
    analysis_baseline_under_rate db settings prop sd ed = 1/2
    ∧ r.chi_square_statistic = roundDec 4 (perform_chi_square_test nb
        (calculate_over_under_rates
          (analysis_test_group db settings prop tp ta th sd ed)).under_count
        (calculate_over_under_rates
          (analysis_test_group db settings prop tp ta th sd ed)).total (1/2)).1
    ∧ r.p_value = roundDec 8 (perform_chi_square_test nb
        (calculate_over_under_rates
          (analysis_test_group db settings prop tp ta th sd ed)).under_count
        (calculate_over_under_rates
          (analysis_test_group db settings prop tp ta th sd ed)).total (1/2)).2 := by
  have hhalf : analysis_baseline_under_rate db settings prop sd ed = 1/2 := by
    rw [analysis_baseline_under_rate]
    rcases hb with h | h
    · rw [h]
    · rw [h]
      simp
  by_cases hc :
      (calculate_over_under_rates (analysis_test_group db settings prop tp ta th sd ed)).total = 0
  · simp [run_analysis, hc] at hr
  · simp only [run_analysis] at hr
    rw [if_neg hc] at hr
    injection hr with h2
    refine ⟨hhalf, ?_, ?_⟩
    · rw [← h2]
      show roundDec 4 (perform_chi_square_test nb
        (calculate_over_under_rates
          (analysis_test_group db settings prop tp ta th sd ed)).under_count
        (calculate_over_under_rates
          (analysis_test_group db settings prop tp ta th sd ed)).total
        (analysis_baseline_under_rate db settings prop sd ed)).1 = _
      rw [hhalf]
    · rw [← h2]
      show roundDec 8 (perform_chi_square_test nb
        (calculate_over_under_rates
          (analysis_test_group db settings prop tp ta th sd ed)).under_count
        (calculate_over_under_rates
          (analysis_test_group db settings prop tp ta th sd ed)).total
        (analysis_baseline_under_rate db settings prop sd ed)).2 = _
      rw [hhalf]

/-- The C10 test group is the single movement. -/
lemma c10_test_total :
    (calculate_over_under_rates
      (analysis_test_group dbC10 s0 none (some 10) (some 5) (some 3) none none)).total = 1 := by
  norm_num [analysis_test_group, get_movements_with_results, orDefault, numFilter, propFilter,
    dateFilter, calculate_over_under_rates, dbC10, mvY, mv5, s0, List.filter_cons]

/-- The C10 baseline group is empty, so its under-rate is null. -/
lemma c10_baseline_none :
    (calculate_baseline_rates dbC10 s0 none none none).under_rate = none := by
  norm_num [calculate_baseline_rates, baseline_movements, calculate_over_under_rates,
    propFilter, dateFilter, dbC10, mvY, mv5, s0, List.filter_cons]

/-- Witness for C10: on a table whose baseline group is empty, the stored
chi-square statistic is the one computed against an expected under-rate of
one half. -/
theorem C10_null_baseline_half_witness :
    chiOf (run_analysis nb0 dbC10 s0 "w" none (some 10) (some 5) (some 3) none none)
      = some (roundDec 4 (perform_chi_square_test nb0
          (calculate_over_under_rates
            (analysis_test_group dbC10 s0 none (some 10) (some 5) (some 3) none none)).under_count
          (calculate_over_under_rates
            (analysis_test_group dbC10 s0 none (some 10) (some 5) (some 3) none none)).total
          (1/2)).1) := by
  cases hEq : run_analysis nb0 dbC10 s0 "w" none (some 10) (some 5) (some 3) none none with
  | none => exact absurd hEq (by simp [run_analysis, c10_test_total])
  | some r =>
    have h := C10_null_baseline_half nb0 dbC10 s0 "w" none
      (some 10) (some 5) (some 3) none none r hEq (Or.inl c10_baseline_none)
    simp only [chiOf]
    rw [h.2.1]

/-- Counterexample for C1 as stated: for a bookmaker with exactly two
observations one hour apart, the 5-minute window delta is NOT null — the
scan picks the hour-old observation (line 50) as baseline even though it is
not at or before now − 5 minutes relative to the window, producing
absolute = −4. -/
theorem C1_counterexample :
    (calculate_change_for_book bsC1 46 none none 0 5).absolute = some (-4)
    ∧ ¬ (calculate_change_for_book bsC1 46 none none 0 5).absolute = none := by
  have h : (calculate_change_for_book bsC1 46 none none 0 5).absolute = some (-4) := by
    norm_num [calculate_change_for_book, find_closest, bsC1, List.dropLast]
  exact ⟨h, by rw [h]; simp⟩

/-- If every candidate is after `current_time`, the scan returns its
running best unchanged. -/
lemma find_closest_all_skipped (t c : ℚ) :
    ∀ (l : List BookObs) (best : Option BookObs),
      (∀ s ∈ l, c < s.snapshot_time) → find_closest t c l best = best := by
  intro l
  induction l with
  | nil =>
    intro best _
    rfl
  | cons snap rest ih =>
    intro best hall
    have hrec := ih best (fun s hs => hall s (List.mem_cons_of_mem _ hs))
    cases best with
    | none =>
      simp only [find_closest]
      rw [if_pos (hall snap (List.mem_cons_self _ _))]
      exact hrec
    | some b =>
      simp only [find_closest]
      rw [if_pos (hall snap (List.mem_cons_self _ _))]
      exact hrec

/-- Full characterization of the backward scan on a strictly descending
candidate list: a `none` result means the best was `none` and every
candidate was skipped; a `some` result is a candidate at or before
`current_time` (or the initial best) whose distance to the target is
minimal among all unskipped candidates and no worse than the initial
best's. -/
lemma find_closest_spec (t c : ℚ) :
    ∀ (l : List BookObs) (best : Option BookObs),
      l.Pairwise (fun x y => y.snapshot_time < x.snapshot_time) →
      ((find_closest t c l best = none → best = none ∧ ∀ s ∈ l, c < s.snapshot_time)
      ∧ (∀ x, find_closest t c l best = some x →
          ((x ∈ l ∧ x.snapshot_time ≤ c) ∨ best = some x))
      ∧ (∀ x, find_closest t c l best = some x →
          ∀ s ∈ l, s.snapshot_time ≤ c →
            |x.snapshot_time - t| ≤ |s.snapshot_time - t|)
      ∧ (∀ x bb, find_closest t c l best = some x → best = some bb →
          |x.snapshot_time - t| ≤ |bb.snapshot_time - t|)) := by
  intro l
  induction l with
  | nil =>
    intro best _
    refine ⟨?_, ?_, ?_, ?_⟩
    · intro h
      rw [find_closest] at h
      exact ⟨h, by simp⟩
    · intro x h
      rw [find_closest] at h
      exact Or.inr h
    · intro x _ s hs
      exact absurd hs (List.not_mem_nil s)
    · intro x bb h hbb
      rw [find_closest] at h
      rw [h] at hbb
      injection hbb with h2
      rw [h2]
  | cons snap rest ih =>
    intro best hsort
    rcases List.pairwise_cons.mp hsort with ⟨hsnap, hrest⟩
    by_cases hskip : c < snap.snapshot_time
    · have heq : find_closest t c (snap :: rest) best = find_closest t c rest best := by
        cases best with
        | none =>
          simp only [find_closest]
          rw [if_pos hskip]
        | some b =>
          simp only [find_closest]
          rw [if_pos hskip]
      obtain ⟨ih1, ih2, ih3, ih4⟩ := ih best hrest
      refine ⟨?_, ?_, ?_, ?_⟩
      · intro h
        rw [heq] at h
        obtain ⟨hb, hall⟩ := ih1 h
        refine ⟨hb, ?_⟩
        intro s hs
        rcases List.mem_cons.mp hs with he | he
        · rw [he]; exact hskip
        · exact hall s he
      · intro x h
        rw [heq] at h
        rcases ih2 x h with ⟨hm, hle⟩ | hb
        · exact Or.inl ⟨List.mem_cons_of_mem _ hm, hle⟩
        · exact Or.inr hb
      · intro x h s hs hsc
        rw [heq] at h
        rcases List.mem_cons.mp hs with he | he
        · exfalso
          rw [he] at hsc
          linarith
        · exact ih3 x h s he hsc
      · intro x bb h hbb
        rw [heq] at h
        exact ih4 x bb h hbb
    · have hsc : snap.snapshot_time ≤ c := not_lt.mp hskip
      cases best with
      | none =>
        have heq : find_closest t c (snap :: rest) none
            = find_closest t c rest (some snap) := by
          simp only [find_closest]
          rw [if_neg hskip]
        obtain ⟨ih1, ih2, ih3, ih4⟩ := ih (some snap) hrest
        refine ⟨?_, ?_, ?_, ?_⟩
        · intro h
          rw [heq] at h
          exact absurd (ih1 h).1 (by simp)
        · intro x h
          rw [heq] at h
          rcases ih2 x h with ⟨hm, hle⟩ | hb
          · exact Or.inl ⟨List.mem_cons_of_mem _ hm, hle⟩
          · injection hb with h2
            exact Or.inl ⟨by rw [← h2]; exact List.mem_cons_self _ _, by rw [← h2]; exact hsc⟩
        · intro x h s hs hsc2
          rw [heq] at h
          rcases List.mem_cons.mp hs with he | he
          · rw [he]
            exact ih4 x snap h rfl
          · exact ih3 x h s he hsc2
        · intro x bb _ hbb
          exact Option.noConfusion hbb
      | some b =>
        by_cases hlt : |snap.snapshot_time - t| < |b.snapshot_time - t|
        · have heq : find_closest t c (snap :: rest) (some b)
              = find_closest t c rest (some snap) := by
            simp only [find_closest]
            rw [if_neg hskip, if_pos hlt]
          obtain ⟨ih1, ih2, ih3, ih4⟩ := ih (some snap) hrest
          refine ⟨?_, ?_, ?_, ?_⟩
          · intro h
            rw [heq] at h
            exact absurd (ih1 h).1 (by simp)
          · intro x h
            rw [heq] at h
            rcases ih2 x h with ⟨hm, hle⟩ | hb
            · exact Or.inl ⟨List.mem_cons_of_mem _ hm, hle⟩
            · injection hb with h2
              exact Or.inl ⟨by rw [← h2]; exact List.mem_cons_self _ _, by rw [← h2]; exact hsc⟩
          · intro x h s hs hsc2
            rw [heq] at h
            rcases List.mem_cons.mp hs with he | he
            · rw [he]
              exact ih4 x snap h rfl
            · exact ih3 x h s he hsc2
          · intro x bb h hbb
            injection hbb with h2
            rw [heq] at h
            have hle := ih4 x snap h rfl
            rw [← h2]
            exact le_trans hle (le_of_lt hlt)
        · by_cases hbreak : snap.snapshot_time < t
          · have heq : find_closest t c (snap :: rest) (some b) = some b := by
              simp only [find_closest]
              rw [if_neg hskip, if_neg hlt, if_pos hbreak]
            refine ⟨?_, ?_, ?_, ?_⟩
            · intro h
              rw [heq] at h
              exact absurd h (by simp)
            · intro x h
              rw [heq] at h
              exact Or.inr h
            · intro x h s hs hsc2
              rw [heq] at h
              injection h with h2
              rcases List.mem_cons.mp hs with he | he
              · rw [he, ← h2]
                exact not_lt.mp hlt
              · have hst : s.snapshot_time < snap.snapshot_time := hsnap s he
                have h1 : |snap.snapshot_time - t| ≤ |s.snapshot_time - t| := by
                  rw [abs_of_neg (by linarith : snap.snapshot_time - t < 0),
                    abs_of_neg (by linarith : s.snapshot_time - t < 0)]
                  linarith
                rw [← h2]
                exact le_trans (not_lt.mp hlt) h1
            · intro x bb h hbb
              rw [heq] at h
              rw [h] at hbb
              injection hbb with h2
              rw [h2]
          · have heq : find_closest t c (snap :: rest) (some b)
                = find_closest t c rest (some b) := by
              simp only [find_closest]
              rw [if_neg hskip, if_neg hlt, if_neg hbreak]
            obtain ⟨ih1, ih2, ih3, ih4⟩ := ih (some b) hrest
            refine ⟨?_, ?_, ?_, ?_⟩
            · intro h
              rw [heq] at h
              exact absurd (ih1 h).1 (by simp)
            · intro x h
              rw [heq] at h
              rcases ih2 x h with ⟨hm, hle⟩ | hb
              · exact Or.inl ⟨List.mem_cons_of_mem _ hm, hle⟩
              · exact Or.inr hb
            · intro x h s hs hsc2
              rw [heq] at h
              rcases List.mem_cons.mp hs with he | he
              · rw [he]
                exact le_trans (ih4 x b h rfl) (not_lt.mp hlt)
              · exact ih3 x h s he hsc2
            · intro x bb h hbb
              rw [heq] at h
              injection hbb with h2
              rw [← h2]
              exact ih4 x b h rfl

/-- C1 (amended): for a fixed window, the baseline is chosen only among the
bookmaker's observations *excluding the most recent one* and not after
`current_time` — the one closest in time to `now − w` — and the delta
fields are null exactly when no such observation exists (not when no
observation lies at or before `now − w`). -/
theorem C1_window_baseline (book_snapshots : List BookObs) (current_line : ℚ)
    (co cu : Option ℤ) (current_time : ℚ) (minutes : ℕ) (hm : ¬ minutes = 0)
    (hsorted : book_snapshots.Pairwise (fun a b => a.snapshot_time < b.snapshot_time)) :
    (book_snapshots.dropLast.filter (fun s => decide (s.snapshot_time ≤ current_time)) = [] →
      calculate_change_for_book book_snapshots current_line co cu current_time minutes
        = nullChange minutes)
    ∧ (book_snapshots.dropLast.filter (fun s => decide (s.snapshot_time ≤ current_time)) ≠ [] →
      ∃ cs ∈ book_snapshots.dropLast.filter (fun s => decide (s.snapshot_time ≤ current_time)),
        (calculate_change_for_book book_snapshots current_line co cu current_time minutes).old_line
            = some cs.line
        ∧ (calculate_change_for_book book_snapshots
            current_line co cu current_time minutes).absolute
            = some (current_line - cs.line)
        ∧ ∀ s ∈ book_snapshots.dropLast.filter (fun s => decide (s.snapshot_time ≤ current_time)),
            |cs.snapshot_time - (current_time - minutes * 60)|
              ≤ |s.snapshot_time - (current_time - minutes * 60)|) := by
  cases book_snapshots with
  | nil =>
    constructor
    · intro _
      rfl
    · intro h
      simp at h
  | cons first restbs =>
    have hsd : (first :: restbs).dropLast.Pairwise
        (fun a b => a.snapshot_time < b.snapshot_time) :=
      hsorted.sublist (List.dropLast_sublist _)
    have hsr : ((first :: restbs).dropLast.reverse).Pairwise
        (fun x y => y.snapshot_time < x.snapshot_time) :=
      List.pairwise_reverse.mpr hsd
    obtain ⟨fc1, fc2, fc3, fc4⟩ := find_closest_spec (current_time - minutes * 60) current_time
      ((first :: restbs).dropLast.reverse) none hsr
    constructor
    · intro hempty
      have hall : ∀ s ∈ (first :: restbs).dropLast.reverse,
          current_time < s.snapshot_time := by
        intro s hs
        have hs2 := List.mem_reverse.mp hs
        by_contra hc2
        have hmem : s ∈ (first :: restbs).dropLast.filter
            (fun s => decide (s.snapshot_time ≤ current_time)) :=
          List.mem_filter.mpr ⟨hs2, decide_eq_true (not_lt.mp hc2)⟩
        rw [hempty] at hmem
        exact List.not_mem_nil s hmem
      have hnone : find_closest (current_time - minutes * 60) current_time
          ((first :: restbs).dropLast.reverse) none = none :=
        find_closest_all_skipped _ _ _ none hall
      simp only [calculate_change_for_book]
      rw [if_neg hm, hnone]
    · intro hne
      obtain ⟨w, hw⟩ := List.exists_mem_of_ne_nil _ hne
      have hw2 := List.mem_filter.mp hw
      have hwrev : w ∈ (first :: restbs).dropLast.reverse := List.mem_reverse.mpr hw2.1
      have hwc : w.snapshot_time ≤ current_time := of_decide_eq_true hw2.2
      rcases hfc : find_closest (current_time - minutes * 60) current_time
          ((first :: restbs).dropLast.reverse) none with _ | x
      · obtain ⟨_, hall⟩ := fc1 hfc
        exact absurd (hall w hwrev) (not_lt.mpr hwc)
      · rcases fc2 x hfc with ⟨hxm, hxc⟩ | hbn
        · have hxmem : x ∈ (first :: restbs).dropLast.filter
              (fun s => decide (s.snapshot_time ≤ current_time)) :=
            List.mem_filter.mpr ⟨List.mem_reverse.mp hxm, decide_eq_true hxc⟩
          have hcalc : calculate_change_for_book (first :: restbs)
              current_line co cu current_time minutes
              = { minutes := minutes
                  absolute := some (current_line - x.line)
                  percent := some (if x.line ≠ 0
                    then (current_line - x.line) / x.line * 100 else 0)
                  old_line := some x.line
                  old_over_odds := x.over_odds
                  old_under_odds := x.under_odds
                  new_over_odds := co
                  new_under_odds := cu } := by
            simp only [calculate_change_for_book]
            rw [if_neg hm, hfc]
          refine ⟨x, hxmem, by rw [hcalc], by rw [hcalc], ?_⟩
          intro s hs
          have hs2 := List.mem_filter.mp hs
          exact fc3 x hfc s (List.mem_reverse.mpr hs2.1) (of_decide_eq_true hs2.2)
        · exact Option.noConfusion hbn

/-- Witness for C1 (amended) on the two-observation input: the older
observation is the unique candidate, so the 5-minute window's baseline is
its line 50 and the delta is −4. -/
theorem C1_window_baseline_witness :
    (calculate_change_for_book bsC1 46 none none 0 5).old_line = some 50
    ∧ (calculate_change_for_book bsC1 46 none none 0 5).absolute = some (46 - 50) := by
  obtain ⟨cs, hcsmem, hold, habs, _⟩ :=
    (C1_window_baseline bsC1 46 none none 0 5 (by norm_num)
      (by norm_num [bsC1, List.pairwise_cons])).2
      (by norm_num [bsC1, List.dropLast, List.filter_cons])
  have hcs : cs = { snapshot_time := -3600, line := 50 } := by
    have h2 := List.mem_filter.mp hcsmem
    have h3 := h2.1
    simp only [bsC1, List.dropLast, List.mem_singleton] at h3
    exact h3
  rw [hcs] at hold habs
  exact ⟨hold, habs⟩
